import Mathlib

/-!
# Verification of the trtg bounded media cache & delivery pipeline

Shallow embedding of the parts of the `rusik69/trtg` repository that the
specification's testable properties talk about:

* `pkg/cleanup/cleanup.go` — the eviction sweeper (`Service.cleanup`):
  scan, budget check, oldest-first deletion loop.
* `pkg/web/server.go` — the delivery pipeline (`Server.handleAPIStream`),
  the codec probe (`needsTranscodingByCodec`), the transcode cache
  (`Server.transcodeAndServe`) and the id parser (`parseVideoID`, which
  wraps Go's `strconv.ParseInt(s, 10, 64)` discarding the error).

External interactions (database query, `os.Stat`, file opens performed by
`http.ServeFile`, the `ffprobe`/`ffmpeg` subprocesses, the Telegram
re-download, the fallback proxy) are modelled as oracle inputs recorded in
an environment structure: each observation the Go code makes of the outside
world is an independent field, which soundly over-approximates concurrent
interference (e.g. the sweeper deleting a file between the handler's
existence check and its open).  The files the handler itself creates or
removes are threaded through an explicit file-system state (a list of
paths present).
-/

namespace Trtg

/-! ## Eviction sweeper (`pkg/cleanup/cleanup.go`) -/

/-- `FileInfo` from cleanup.go: path, modification time and size of one
regular file found by `scanFiles`.  Go's `time.Time` is totally ordered by
`Before`; we model it as an integer timestamp. -/
structure FileInfo where
  path : String
  modTime : Int
  size : Int
deriving DecidableEq

/-- The comparison used by `sort.Slice(files, …ModTime.Before…)`:
ascending modification time (oldest first). -/
def byModTime (a b : FileInfo) : Prop := a.modTime ≤ b.modTime

instance : DecidableRel byModTime := fun a b => Int.decLe a.modTime b.modTime

instance : IsTotal FileInfo byModTime := ⟨fun a b => Int.le_total a.modTime b.modTime⟩

instance : IsTrans FileInfo byModTime := ⟨fun _ _ _ => Int.le_trans⟩

/-- Sorting the scanned file list oldest-first.  Go uses an unstable
in-place sort with the strict `Before` comparison; on lists with pairwise
distinct modification times (the hypothesis of every claim that depends on
the order) any correct sort produces the same list, so we may embed it as
insertion sort by `≤`.  Claims that do not depend on the order hold for an
arbitrary order. -/
def sortByModTime (files : List FileInfo) : List FileInfo :=
  List.insertionSort byModTime files

/-- `totalSize = Σ size` over a file list. -/
def sumSizes (files : List FileInfo) : Int :=
  (files.map FileInfo.size).sum

/-- The sweeper's configuration (`Service.maxBytes`, `Service.maxFiles`);
`storagePath` and `interval` do not influence the pure sweep decision. -/
structure CleanupService where
  maxBytes : Int
  maxFiles : Int
deriving DecidableEq

/-- `NewService`: maxBytes = MaxStorageGB·1024³ = 2 GB, maxFiles = MaxFiles = 5. -/
def NewService : CleanupService :=
  { maxBytes := 2 * 1024 * 1024 * 1024, maxFiles := 5 }

/-- The deletion loop of `Service.cleanup` (cleanup.go lines 117–137) in the
run where every `os.Remove` succeeds.  The loop walks the sorted list; before
each deletion it re-checks `totalSize <= maxBytes && len(files)-deletedCount
<= maxFiles` and breaks when both hold.  `totalSize` is the running total and
`remaining` is `len(files) - deletedCount`.  Returns
`(deleted files in order, files left on disk)`. -/
def cleanupLoop (maxBytes maxFiles : Int) :
    List FileInfo → Int → Int → List FileInfo × List FileInfo
  | [], _, _ => ([], [])
  | f :: rest, totalSize, remaining =>
    if totalSize ≤ maxBytes ∧ remaining ≤ maxFiles then ([], f :: rest)
    else
      let p := cleanupLoop maxBytes maxFiles rest (totalSize - f.size) (remaining - 1)
      (f :: p.1, p.2)

/-- One sweep of `Service.cleanup` over a scanned file list, in the run
where the storage path exists, the scan succeeds and every deletion
succeeds.  Mirrors cleanup.go lines 85–137: empty scan returns early;
`needsCleanup := totalSize > s.maxBytes || len(files) > s.maxFiles`; when
cleanup is needed the files are sorted oldest-first and the deletion loop
runs.  Returns `(deleted, remaining)`. -/
def CleanupService.cleanup (s : CleanupService) (files : List FileInfo) :
    List FileInfo × List FileInfo :=
  if files.isEmpty then ([], files)
  else
    let totalSize := sumSizes files
    if totalSize > s.maxBytes ∨ (files.length : Int) > s.maxFiles then
      cleanupLoop s.maxBytes s.maxFiles (sortByModTime files) totalSize (files.length : Int)
    else ([], files)

/-! ## Go's `strconv.ParseInt(s, 10, 64)` (used by `parseVideoID`) -/

/-- Decimal digit value of a character, `none` for a non-digit
(Go: the `default` branch of the digit switch → syntax error). -/
def digitVal (c : Char) : Option Nat :=
  if '0' ≤ c ∧ c ≤ '9' then some (c.toNat - '0'.toNat) else none

/-- Result of Go's `strconv.ParseUint(s, 10, 64)`: the parsed value, a
range error (Go also returns the value `maxUint64` with it), or a syntax
error (Go also returns the value 0 with it). -/
inductive ParseUintResult where
  | ok (n : Nat)
  | rangeErr
  | syntaxErr
deriving DecidableEq

/-- `maxVal` for `ParseUint(…, 10, 64)`: 2⁶⁴ − 1. -/
def maxUint64 : Nat := 18446744073709551615

/-- Go's `cutoff` for base 10, bitSize 64: `maxUint64/10 + 1`; once the
accumulator reaches it, multiplying by 10 would overflow. -/
def cutoff10 : Nat := 18446744073709551615 / 10 + 1

/-- The accumulation loop of `strconv.ParseUint` for base 10, bitSize 64.
A non-digit aborts with a syntax error; an accumulator at or past the
cutoff, or a step past `maxUint64`, aborts with a range error (before
looking at the remaining characters, exactly as the Go loop does). -/
def parseUintChars : List Char → Nat → ParseUintResult
  | [], n => .ok n
  | c :: cs, n =>
    match digitVal c with
    | none => .syntaxErr
    | some d =>
      if n ≥ cutoff10 then .rangeErr
      else if n * 10 + d > maxUint64 then .rangeErr
      else parseUintChars cs (n * 10 + d)

/-- `strconv.ParseUint(s, 10, 64)` on an explicit character list: the empty
string is a syntax error, otherwise the digit loop runs from 0. -/
def parseUint64 (cs : List Char) : ParseUintResult :=
  if cs.isEmpty then .syntaxErr else parseUintChars cs 0

/-- The sign handling at the top of `strconv.ParseInt`: a leading `+` is
dropped, a leading `-` is dropped and remembered. -/
def stripSign : List Char → Bool × List Char
  | [] => (false, [])
  | c :: rest =>
    if c = '+' then (false, rest)
    else if c = '-' then (true, rest)
    else (false, c :: rest)

/-- Go's `strconv.ParseInt(s, 10, 64)` with the error discarded, i.e. the
value `parseVideoID` actually uses: 0 on a syntax error; the clamped
boundary (2⁶³ − 1, resp. −2⁶³) on a range error or an in-range-for-uint64
magnitude that overflows int64; the signed value otherwise. -/
def parseInt64 (s : String) : Int :=
  let p := stripSign s.data
  match parseUint64 p.2 with
  | .syntaxErr => 0
  | .rangeErr => if p.1 then -(2 ^ 63 : Int) else (2 ^ 63 : Int) - 1
  | .ok un =>
    if p.1 then
      if un > 2 ^ 63 then -(2 ^ 63 : Int) else -(un : Int)
    else
      if un ≥ 2 ^ 63 then (2 ^ 63 : Int) - 1 else (un : Int)

/-- `parseVideoID` (server.go 1091–1095): `strconv.ParseInt(s, 10, 64)`
with the error discarded. -/
def parseVideoID (s : String) : Int := parseInt64 s

/-- The numeric value of a decimal digit string (used to characterise the
overflow behaviour of the parse loop). -/
def decimalValue : List Char → Nat → Nat
  | [], n => n
  | c :: cs, n => decimalValue cs (n * 10 + (digitVal c).getD 0)

/-! ## Delivery pipeline (`pkg/web/server.go`) -/

/-- The fields of `database.Video` that `handleAPIStream` reads. -/
structure Video where
  id : Int
  telegramFileID : String
  telegramFilePath : String
deriving DecidableEq

/-- Server state used by the stream handler: the bot token (`""` disables
the local-disk branch), the download directory, and whether the Telegram
downloader collaborator was configured (`s.downloader != nil`). -/
structure ServerCfg where
  token : String
  downloadDir : String
  downloaderPresent : Bool
deriving DecidableEq

/-- The raw stdout of the two `ffprobe` invocations made by
`needsTranscodingByCodec` (`none` = the subprocess failed for that
stream).  The audio probe only runs when the video probe succeeded. -/
structure ProbePair where
  video : Option String
  audio : Option String
deriving DecidableEq

/-- Oracle for every observation the handler makes of the outside world.
Each filesystem observation is an independent field, which models the
sweeper (or anything else) deleting files between any two steps of the
handler. -/
structure StreamEnv where
  /-- `s.db.GetAllVideos()`; `none` = error. -/
  dbResult : Option (List Video)
  /-- `os.Stat(localPath)` succeeds at the existence check. -/
  statLocal : Bool
  /-- `ffprobe` outputs for the local file. -/
  probeLocal : ProbePair
  /-- the local file is still present when `http.ServeFile` opens it. -/
  openLocal : Bool
  /-- `os.Stat(cachedPath)` succeeds inside `transcodeAndServe`. -/
  statCached : Bool
  /-- the cached file is present when `http.ServeFile` opens it. -/
  openCached : Bool
  /-- the `ffmpeg` invocation exits 0. -/
  ffmpegExitOK : Bool
  /-- the `ffmpeg` invocation left (possibly partial) output bytes at
  `cachedPath` (it writes directly to the final cache path; on failure it
  may or may not have created the file). -/
  ffmpegWrites : Bool
  /-- `os.CreateTemp` succeeds. -/
  createTempOK : Bool
  /-- the unique name `os.CreateTemp` picked (`stream-<id>-<rand>.mp4`). -/
  tmpName : String
  /-- `downloader.DownloadFileWithPath` succeeds. -/
  downloadOK : Bool
  /-- `ffprobe` outputs for the re-downloaded temporary file. -/
  probeTmp : ProbePair
  /-- the temporary file is present when `http.ServeFile` opens it. -/
  openTmp : Bool
  /-- the client stays connected for the whole response body (a disconnect
  does not change the status already sent nor skip any cleanup). -/
  clientConnected : Bool
  /-- `client.Do` on the fallback proxy request succeeds. -/
  proxyOK : Bool
  /-- the status code of the proxied response, copied verbatim. -/
  proxyStatus : Nat
deriving DecidableEq

/-- What the handler sent to the caller. -/
inductive Outcome where
  /-- 400 "Video ID required" (empty id segment). -/
  | badRequest
  /-- 500 on a `GetAllVideos` error. -/
  | dbError
  /-- 404 "Video not found". -/
  | notFoundVideo
  /-- 404 "Video file ID not available". -/
  | notFoundFileID
  /-- `http.ServeFile` streamed the named file (200/206). -/
  | served (path : String)
  /-- `http.ServeFile` was called on a path that had vanished: it replies
  404 to the client itself. -/
  | serveMissing (path : String)
  /-- 500 "Failed to create temporary file". -/
  | tempFileError
  /-- 500 "Failed to download video from Telegram". -/
  | downloadError
  /-- 500 "Failed to transcode video". -/
  | transcodeError
  /-- 500 "Failed to stream video" (proxy request failed). -/
  | proxyError
  /-- the fallback proxy response was forwarded verbatim with its status. -/
  | proxied (status : Nat)
deriving DecidableEq

/-- HTTP status code of each outcome. -/
def statusOf : Outcome → Nat
  | .badRequest => 400
  | .dbError => 500
  | .notFoundVideo => 404
  | .notFoundFileID => 404
  | .served _ => 200
  | .serveMissing _ => 404
  | .tempFileError => 500
  | .downloadError => 500
  | .transcodeError => 500
  | .proxyError => 500
  | .proxied s => s

/-- ASCII whitespace, the relevant fragment of `strings.TrimSpace`'s
whitespace class (`ffprobe` output is newline-terminated ASCII). -/
def isSpaceChar (c : Char) : Bool :=
  c = ' ' || c = '\t' || c = '\n' || c = '\r'

/-- `strings.TrimSpace` on the subprocess output. -/
def trimSpace (s : String) : String :=
  ⟨((s.data.dropWhile isSpaceChar).reverse.dropWhile isSpaceChar).reverse⟩

/-- The video-codec switch of `needsTranscodingByCodec`
(server.go 1312–1316): `videoCompatible` becomes true exactly on the four
listed cases. -/
def videoCodecCompatible (codec : String) : Bool :=
  codec == "h264" || codec == "vp8" || codec == "vp9" || codec == "av1"

/-- The audio-codec switch of `needsTranscodingByCodec`
(server.go 1321–1328): `audioCompatible` becomes true exactly on the four
listed cases; the explicit `ac3`/`eac3`/`dts`/`truehd`/`dts-hd` cases
leave it `false`, like the default branch. -/
def audioCodecCompatible (codec : String) : Bool :=
  codec == "aac" || codec == "mp3" || codec == "opus" || codec == "vorbis"

/-- `needsTranscodingByCodec` (server.go 1277–1336) as a function of the
two `ffprobe` results: a failed invocation for either stream returns
`true` ("safe default"); otherwise the file needs transcoding iff either
trimmed codec token is outside its allow-list. -/
def needsTranscodingByCodec (probe : ProbePair) : Bool :=
  match probe.video with
  | none => true
  | some vout =>
    match probe.audio with
    | none => true
    | some aout =>
      !(videoCodecCompatible (trimSpace vout) && audioCodecCompatible (trimSpace aout))

/-- Number of `ffprobe` subprocess invocations `needsTranscodingByCodec`
performs: the audio probe runs only if the video probe succeeded. -/
def probeInvocations (probe : ProbePair) : Nat :=
  match probe.video with
  | none => 1
  | some _ => 2

/-- The deterministic transcode-cache path
`filepath.Join(s.downloadDir, fmt.Sprintf("transcoded-%d.mp4", videoID))`. -/
def cachedPathFor (downloadDir : String) (videoID : Int) : String :=
  downloadDir ++ "/transcoded-" ++ toString videoID ++ ".mp4"

/-- The expected local path
`filepath.Join("/var/lib/telegram-bot-api", s.token, video.TelegramFilePath)`. -/
def localPathFor (token filePath : String) : String :=
  "/var/lib/telegram-bot-api/" ++ token ++ "/" ++ filePath

/-- Add a path to the file-system state (no duplicates). -/
def insertPath (p : String) (fs : List String) : List String :=
  if p ∈ fs then fs else p :: fs

/-- `os.Remove p` on the file-system state. -/
def removePath (p : String) (fs : List String) : List String :=
  fs.filter (fun q => q ≠ p)

/-- Result of one `transcodeAndServe` call: what was sent, how many
`ffmpeg` subprocesses ran, and the file-system state afterwards. -/
structure TResult where
  outcome : Outcome
  ffmpegRuns : Nat
  fs : List String
deriving DecidableEq

/-- `Server.transcodeAndServe` (server.go 1338–1394).  If `cachedPath`
already exists it is served with no subprocess; otherwise `ffmpeg` writes
directly to `cachedPath` (leaving whatever bytes it produced there even on
a non-zero exit, since the caller removes nothing) and on success the
cached file is served. -/
def transcodeAndServe (env : StreamEnv) (downloadDir : String)
    (inputPath : String) (videoID : Int) (fs : List String) : TResult :=
  let cachedPath := cachedPathFor downloadDir videoID
  let _ := inputPath
  if env.statCached then
    { outcome := if env.openCached then .served cachedPath else .serveMissing cachedPath
      ffmpegRuns := 0
      fs := fs }
  else
    let fs1 := if env.ffmpegWrites then insertPath cachedPath fs else fs
    if env.ffmpegExitOK then
      { outcome := if env.openCached then .served cachedPath else .serveMissing cachedPath
        ffmpegRuns := 1
        fs := fs1 }
    else
      { outcome := .transcodeError, ffmpegRuns := 1, fs := fs1 }

/-- Result of one `handleAPIStream` call: response, the marker value after
the request, subprocess/fetch counts, and the file-system state as changed
by the handler's own writes. -/
structure HResult where
  outcome : Outcome
  currentVideo : Int
  downloadRuns : Nat
  ffprobeRuns : Nat
  ffmpegRuns : Nat
  fs : List String
deriving DecidableEq

/-- `Server.handleAPIStream` (server.go 899–1037) on the id path segment
`videoIDStr`, with prior `s.currentVideo = cur`.  Decision chain: empty id
→ 400; parse id and store it in the marker; database error → 500; no
record → 404; empty Telegram file id → 404; token set and local stat hit →
codec gate on the local file (serve directly or `transcodeAndServe`), and
return; otherwise, downloader configured → create a transient temp file,
re-download into it, codec gate on it, and remove the temp file on every
exit (`defer os.Remove`); otherwise forward to the fallback proxy. -/
def handleAPIStream (cfg : ServerCfg) (env : StreamEnv) (videoIDStr : String)
    (fs : List String) (cur : Int) : HResult :=
  if videoIDStr = "" then
    { outcome := .badRequest, currentVideo := cur
      downloadRuns := 0, ffprobeRuns := 0, ffmpegRuns := 0, fs := fs }
  else
    let videoID := parseVideoID videoIDStr
    match env.dbResult with
    | none =>
      { outcome := .dbError, currentVideo := videoID
        downloadRuns := 0, ffprobeRuns := 0, ffmpegRuns := 0, fs := fs }
    | some videos =>
      match videos.find? (fun v => v.id == videoID) with
      | none =>
        { outcome := .notFoundVideo, currentVideo := videoID
          downloadRuns := 0, ffprobeRuns := 0, ffmpegRuns := 0, fs := fs }
      | some video =>
        if video.telegramFileID = "" then
          { outcome := .notFoundFileID, currentVideo := videoID
            downloadRuns := 0, ffprobeRuns := 0, ffmpegRuns := 0, fs := fs }
        else if cfg.token ≠ "" ∧ env.statLocal then
          let localPath := localPathFor cfg.token video.telegramFilePath
          if needsTranscodingByCodec env.probeLocal then
            let t := transcodeAndServe env cfg.downloadDir localPath videoID fs
            { outcome := t.outcome, currentVideo := videoID
              downloadRuns := 0, ffprobeRuns := probeInvocations env.probeLocal
              ffmpegRuns := t.ffmpegRuns, fs := t.fs }
          else
            { outcome := if env.openLocal then .served localPath else .serveMissing localPath
              currentVideo := videoID
              downloadRuns := 0, ffprobeRuns := probeInvocations env.probeLocal
              ffmpegRuns := 0, fs := fs }
        else if cfg.downloaderPresent then
          if env.createTempOK then
            let tmpPath := cfg.downloadDir ++ "/" ++ env.tmpName
            let fs1 := insertPath tmpPath fs
            if env.downloadOK then
              if needsTranscodingByCodec env.probeTmp then
                let t := transcodeAndServe env cfg.downloadDir tmpPath videoID fs1
                { outcome := t.outcome, currentVideo := videoID
                  downloadRuns := 1, ffprobeRuns := probeInvocations env.probeTmp
                  ffmpegRuns := t.ffmpegRuns, fs := removePath tmpPath t.fs }
              else
                { outcome := if env.openTmp then .served tmpPath else .serveMissing tmpPath
                  currentVideo := videoID
                  downloadRuns := 1, ffprobeRuns := probeInvocations env.probeTmp
                  ffmpegRuns := 0, fs := removePath tmpPath fs1 }
            else
              { outcome := .downloadError, currentVideo := videoID
                downloadRuns := 1, ffprobeRuns := 0, ffmpegRuns := 0
                fs := removePath tmpPath fs1 }
          else
            { outcome := .tempFileError, currentVideo := videoID
              downloadRuns := 0, ffprobeRuns := 0, ffmpegRuns := 0, fs := fs }
        else
          if env.proxyOK then
            { outcome := .proxied env.proxyStatus, currentVideo := videoID
              downloadRuns := 0, ffprobeRuns := 0, ffmpegRuns := 0, fs := fs }
          else
            { outcome := .proxyError, currentVideo := videoID
              downloadRuns := 0, ffprobeRuns := 0, ffmpegRuns := 0, fs := fs }

/-- A baseline oracle environment for concrete instantiations; individual
fields are overridden per scenario. -/
def envBase : StreamEnv :=
  { dbResult := some []
    statLocal := false
    probeLocal := ⟨none, none⟩
    openLocal := false
    statCached := false
    openCached := false
    ffmpegExitOK := false
    ffmpegWrites := false
    createTempOK := false
    tmpName := "stream-0-x.mp4"
    downloadOK := false
    probeTmp := ⟨none, none⟩
    openTmp := false
    clientConnected := true
    proxyOK := false
    proxyStatus := 200 }

/-! ## Lemmas about the sweeper -/

theorem sumSizes_nil : sumSizes [] = 0 := rfl

theorem sumSizes_cons (f : FileInfo) (l : List FileInfo) :
    sumSizes (f :: l) = f.size + sumSizes l := by
  simp [sumSizes]

theorem sumSizes_perm {l₁ l₂ : List FileInfo} (h : l₁.Perm l₂) :
    sumSizes l₁ = sumSizes l₂ :=
  (h.map FileInfo.size).sum_eq

theorem sortByModTime_perm (files : List FileInfo) :
    (sortByModTime files).Perm files :=
  List.perm_insertionSort byModTime files

theorem sortByModTime_sorted (files : List FileInfo) :
    List.Sorted byModTime (sortByModTime files) :=
  List.sorted_insertionSort byModTime files

theorem sortByModTime_length (files : List FileInfo) :
    (sortByModTime files).length = files.length :=
  (sortByModTime_perm files).length_eq

/-- In a run where every deletion succeeds, the deletion loop stops with
the remaining files inside both budgets (given non-negative ceilings):
either the break condition fired, or every file was deleted and the
remainder is empty. -/
theorem cleanupLoop_budget (mB mF : Int) (hB : 0 ≤ mB) (hF : 0 ≤ mF) :
    ∀ (L : List FileInfo) (T r : Int), T = sumSizes L → r = (L.length : Int) →
      sumSizes (cleanupLoop mB mF L T r).2 ≤ mB ∧
      ((cleanupLoop mB mF L T r).2.length : Int) ≤ mF
  | [], T, r, _, _ => by
    simp only [cleanupLoop, sumSizes_nil, List.length_nil, Int.natCast_zero]
    exact ⟨hB, hF⟩
  | f :: rest, T, r, hT, hr => by
    by_cases h : T ≤ mB ∧ r ≤ mF
    · simp only [cleanupLoop, if_pos h]
      exact ⟨hT ▸ h.1, hr ▸ h.2⟩
    · simp only [cleanupLoop, if_neg h]
      exact cleanupLoop_budget mB mF hB hF rest (T - f.size) (r - 1)
        (by rw [hT, sumSizes_cons]; ring)
        (by rw [hr]; push_cast [List.length_cons]; ring)

/-- C1: for every sweep of the cleanup service in which every attempted
file deletion succeeds (the run `CleanupService.cleanup` embeds), after
the sweep the total size of the remaining files is at most `maxBytes` and
the remaining file count is at most `maxFiles`.  This holds without
exception (for the real, non-negative ceilings): when even a lone
remaining file exceeds `maxBytes` the loop deletes it too, ending at zero
files — never below zero — which still satisfies both ceilings, so the
claim's permitted single-file exception is subsumed. -/
theorem c1_cleanup_budget (s : CleanupService) (files : List FileInfo)
    (hB : 0 ≤ s.maxBytes) (hF : 0 ≤ s.maxFiles) :
    sumSizes (s.cleanup files).2 ≤ s.maxBytes ∧
    ((s.cleanup files).2.length : Int) ≤ s.maxFiles := by
  unfold CleanupService.cleanup
  cases files with
  | nil =>
    simp only [List.isEmpty_nil, if_pos]
    simpa [sumSizes] using ⟨hB, hF⟩
  | cons f rest =>
    simp only [List.isEmpty_cons, if_neg, Bool.false_eq_true, not_false_eq_true]
    by_cases hneed : sumSizes (f :: rest) > s.maxBytes ∨ ((f :: rest).length : Int) > s.maxFiles
    · rw [if_pos hneed]
      exact cleanupLoop_budget s.maxBytes s.maxFiles hB hF (sortByModTime (f :: rest))
        (sumSizes (f :: rest)) ((f :: rest).length : Int)
        (sumSizes_perm (sortByModTime_perm (f :: rest))).symm
        (by rw [sortByModTime_length])
    · rw [if_neg hneed]
      push_neg at hneed
      exact hneed

/-- Concrete instantiation of `c1_cleanup_budget`: the default 2 GB / 5
file service sweeping a single 3 GB file. -/
theorem c1_cleanup_budget_witness :
    0 ≤ NewService.maxBytes ∧ 0 ≤ NewService.maxFiles ∧
    sumSizes (NewService.cleanup [⟨"a", 1, 3221225472⟩]).2 ≤ NewService.maxBytes ∧
    ((NewService.cleanup [⟨"a", 1, 3221225472⟩]).2.length : Int) ≤ NewService.maxFiles :=
  ⟨by decide, by decide,
    (c1_cleanup_budget NewService [⟨"a", 1, 3221225472⟩] (by decide) (by decide)).1,
    (c1_cleanup_budget NewService [⟨"a", 1, 3221225472⟩] (by decide) (by decide)).2⟩

/-- When the break condition fails strictly before step `k` and holds at
step `k`, the deletion loop deletes exactly the first `k` files of the
(sorted) list it is given and leaves the rest. -/
theorem cleanupLoop_eq_take (mB mF : Int) :
    ∀ (L : List FileInfo) (T r : Int) (k : Nat), k ≤ L.length →
      (∀ j : Nat, j < k →
        ¬(T - sumSizes (L.take j) ≤ mB ∧ r - (j : Int) ≤ mF)) →
      (T - sumSizes (L.take k) ≤ mB ∧ r - (k : Int) ≤ mF) →
      cleanupLoop mB mF L T r = (L.take k, L.drop k)
  | [], _, _, k, hk, _, _ => by
    have hk0 : k = 0 := Nat.le_zero.mp hk
    subst hk0
    simp [cleanupLoop]
  | f :: rest, T, r, k, hk, hb, ha => by
    cases k with
    | zero =>
      have h : T ≤ mB ∧ r ≤ mF := by
        simpa [sumSizes_nil] using ha
      simp [cleanupLoop, if_pos h]
    | succ k' =>
      have h0 : ¬(T ≤ mB ∧ r ≤ mF) := by
        have := hb 0 (Nat.succ_pos k')
        simpa [sumSizes_nil] using this
      have hrec := cleanupLoop_eq_take mB mF rest (T - f.size) (r - 1) k'
        (by simpa using hk)
        (fun j hj => by
          have hbj := hb (j + 1) (Nat.succ_lt_succ hj)
          intro hc
          apply hbj
          have hsum : sumSizes ((f :: rest).take (j + 1)) =
              f.size + sumSizes (rest.take j) := by
            rw [List.take_succ_cons, sumSizes_cons]
          constructor
          · rw [hsum]
            have := hc.1
            omega
          · have := hc.2
            push_cast
            omega)
        (by
          have hsum : sumSizes ((f :: rest).take (k' + 1)) =
              f.size + sumSizes (rest.take k') := by
            rw [List.take_succ_cons, sumSizes_cons]
          rw [hsum] at ha
          constructor
          · have := ha.1
            omega
          · have := ha.2
            push_cast at this ⊢
            omega)
      simp only [cleanupLoop, if_neg h0, hrec, List.take_succ_cons, List.drop_succ_cons]

/-- C2: with pairwise-distinct modification times and a budget satisfied
by deleting exactly the `k` oldest files and by no smaller prefix, a sweep
with all deletions succeeding deletes precisely the `k` oldest files (the
first `k` of the oldest-first ordering) and leaves the rest; with `k = 0`
(budget already satisfied) it deletes nothing, and with `k ≥ 1` the sweep
triggers because at `j = 0` one of the two ceilings is exceeded.  The last
two conjuncts identify `sortByModTime files` as the oldest-first
enumeration of `files`. -/
theorem c2_cleanup_oldest_first (s : CleanupService) (files : List FileInfo) (k : Nat)
    (hdist : (files.map FileInfo.modTime).Nodup)
    (hk : k ≤ files.length)
    (hbefore : ∀ j : Nat, j < k →
      ¬(sumSizes files - sumSizes ((sortByModTime files).take j) ≤ s.maxBytes ∧
        (files.length : Int) - (j : Int) ≤ s.maxFiles))
    (hat : sumSizes files - sumSizes ((sortByModTime files).take k) ≤ s.maxBytes ∧
      (files.length : Int) - (k : Int) ≤ s.maxFiles) :
    (s.cleanup files).1 = (sortByModTime files).take k ∧
    (s.cleanup files).2.Perm ((sortByModTime files).drop k) ∧
    (sortByModTime files).Perm files ∧
    List.Sorted byModTime (sortByModTime files) := by
  have hmain : (s.cleanup files).1 = (sortByModTime files).take k ∧
      (s.cleanup files).2.Perm ((sortByModTime files).drop k) := by
    unfold CleanupService.cleanup
    cases k with
    | zero =>
      have hunder : ¬(sumSizes files > s.maxBytes ∨ (files.length : Int) > s.maxFiles) := by
        push_neg
        simpa [sumSizes_nil] using hat
      cases files with
      | nil => exact ⟨by simp [sortByModTime], by simp [sortByModTime]⟩
      | cons f rest =>
        rw [if_neg (by simp), if_neg hunder]
        exact ⟨by simp, by simpa using (sortByModTime_perm (f :: rest)).symm⟩
    | succ k' =>
      have hgate : sumSizes files > s.maxBytes ∨ (files.length : Int) > s.maxFiles := by
        have := hbefore 0 (Nat.succ_pos k')
        simp only [List.take_zero, sumSizes_nil, Int.natCast_zero, Int.sub_zero] at this
        omega
      have hne : ¬files.isEmpty = true := by
        cases files with
        | nil => simp at hk
        | cons f rest => simp
      rw [if_neg hne, if_pos hgate,
        cleanupLoop_eq_take s.maxBytes s.maxFiles (sortByModTime files)
          (sumSizes files) ((files.length : Int)) (k' + 1)
          (by rw [sortByModTime_length]; exact hk) hbefore hat]
      exact ⟨rfl, List.Perm.refl _⟩
  exact ⟨hmain.1, hmain.2, sortByModTime_perm files, sortByModTime_sorted files⟩

/-- Concrete instantiation of `c2_cleanup_oldest_first`: the spec's 6 × 1 GB
scenario with a 5 GB / 10 file budget deletes exactly the single oldest
file. -/
theorem c2_cleanup_oldest_first_witness :
    (CleanupService.mk 5368709120 10 |>.cleanup
      [⟨"a", 6, 1073741824⟩, ⟨"b", 1, 1073741824⟩, ⟨"c", 4, 1073741824⟩,
       ⟨"d", 2, 1073741824⟩, ⟨"e", 5, 1073741824⟩, ⟨"f", 3, 1073741824⟩]).1 =
      [⟨"b", 1, 1073741824⟩] := by
  have h := c2_cleanup_oldest_first (CleanupService.mk 5368709120 10)
    [⟨"a", 6, 1073741824⟩, ⟨"b", 1, 1073741824⟩, ⟨"c", 4, 1073741824⟩,
     ⟨"d", 2, 1073741824⟩, ⟨"e", 5, 1073741824⟩, ⟨"f", 3, 1073741824⟩] 1
    (by decide) (by decide)
    (fun j hj => by
      have hj0 : j = 0 := by omega
      subst hj0
      decide)
    (by decide)
  rw [h.1]
  decide

/-! ## Lemmas about the pipeline -/

theorem removePath_not_mem (p : String) (m : List String) :
    p ∉ removePath p m := by
  simp [removePath]

theorem removePath_mem_iff (p q : String) (m : List String) (hq : q ≠ p) :
    q ∈ removePath p m ↔ q ∈ m := by
  simp [removePath, hq]

theorem mem_insertPath (p q : String) (fs : List String) :
    q ∈ insertPath p fs ↔ q = p ∨ q ∈ fs := by
  unfold insertPath
  split_ifs with h
  · constructor
    · exact fun hm => Or.inr hm
    · rintro (rfl | hm)
      · exact h
      · exact hm
  · simp [List.mem_cons]

/-- `transcodeAndServe` never produces the handler's explicit not-found
responses. -/
theorem transcodeAndServe_outcome_cases (env : StreamEnv) (dir input : String)
    (videoID : Int) (fs : List String) :
    (transcodeAndServe env dir input videoID fs).outcome ≠ .notFoundVideo ∧
    (transcodeAndServe env dir input videoID fs).outcome ≠ .notFoundFileID := by
  unfold transcodeAndServe
  split_ifs <;> simp

/-- C6: the codec probe classifies a file as not needing transcoding
exactly when both `ffprobe` invocations succeed and the trimmed video
codec token is one of h264/vp8/vp9/av1 while the trimmed audio codec token
is one of aac/mp3/opus/vorbis; whenever the probe subprocess fails for
either stream the file is classified as needing transcoding. -/
theorem c6_codec_classification (p : ProbePair) :
    (needsTranscodingByCodec p = false ↔
      ∃ vout aout, p.video = some vout ∧ p.audio = some aout ∧
        trimSpace vout ∈ ["h264", "vp8", "vp9", "av1"] ∧
        trimSpace aout ∈ ["aac", "mp3", "opus", "vorbis"]) ∧
    ((p.video = none ∨ p.audio = none) → needsTranscodingByCodec p = true) := by
  obtain ⟨v, a⟩ := p
  cases v with
  | none => simp [needsTranscodingByCodec]
  | some vout =>
    cases a with
    | none => simp [needsTranscodingByCodec]
    | some aout =>
      simp [needsTranscodingByCodec, videoCodecCompatible, audioCodecCompatible]
      tauto

/-- Concrete instantiation of `c6_codec_classification`: a failed video
probe classifies the file as needing transcoding even with compatible
audio. -/
theorem c6_codec_classification_witness :
    needsTranscodingByCodec ⟨none, some "aac"⟩ = true :=
  (c6_codec_classification ⟨none, some "aac"⟩).2 (Or.inl rfl)

/-- C5: with the cached transcoded file present at its deterministic path
(and still present at serve time), any two `transcodeAndServe` calls for
the same video id — even from different source paths — each spawn zero
`ffmpeg` subprocesses, leave the file system untouched and serve the same
cached path. -/
theorem c5_transcode_idempotent (env₁ env₂ : StreamEnv) (dir input₁ input₂ : String)
    (videoID : Int) (fs₁ fs₂ : List String)
    (h₁s : env₁.statCached = true) (h₁o : env₁.openCached = true)
    (h₂s : env₂.statCached = true) (h₂o : env₂.openCached = true) :
    (transcodeAndServe env₁ dir input₁ videoID fs₁).outcome =
      .served (cachedPathFor dir videoID) ∧
    (transcodeAndServe env₂ dir input₂ videoID fs₂).outcome =
      .served (cachedPathFor dir videoID) ∧
    (transcodeAndServe env₁ dir input₁ videoID fs₁).ffmpegRuns = 0 ∧
    (transcodeAndServe env₂ dir input₂ videoID fs₂).ffmpegRuns = 0 ∧
    (transcodeAndServe env₁ dir input₁ videoID fs₁).fs = fs₁ ∧
    (transcodeAndServe env₂ dir input₂ videoID fs₂).fs = fs₂ := by
  simp [transcodeAndServe, h₁s, h₁o, h₂s, h₂o]

/-- Concrete instantiation of `c5_transcode_idempotent`: two consecutive
calls for video 7 with the cache populated. -/
theorem c5_transcode_idempotent_witness :
    (transcodeAndServe { envBase with statCached := true, openCached := true }
      "/downloads" "/downloads/in.mkv" 7 []).outcome =
      .served (cachedPathFor "/downloads" 7) ∧
    (transcodeAndServe { envBase with statCached := true, openCached := true }
      "/downloads" "/downloads/other.avi" 7 []).outcome =
      .served (cachedPathFor "/downloads" 7) ∧
    (transcodeAndServe { envBase with statCached := true, openCached := true }
      "/downloads" "/downloads/in.mkv" 7 []).ffmpegRuns = 0 ∧
    (transcodeAndServe { envBase with statCached := true, openCached := true }
      "/downloads" "/downloads/other.avi" 7 []).ffmpegRuns = 0 ∧
    (transcodeAndServe { envBase with statCached := true, openCached := true }
      "/downloads" "/downloads/in.mkv" 7 []).fs = [] ∧
    (transcodeAndServe { envBase with statCached := true, openCached := true }
      "/downloads" "/downloads/other.avi" 7 []).fs = [] :=
  c5_transcode_idempotent _ _ _ _ _ 7 _ _ rfl rfl rfl rfl

/-- C4 counterexample: when the transcoder exits non-zero after having
written (partial) output bytes to the deterministic cache path — the tool
writes directly to that path, not atomically — the operation does return
an internal error, but the cache directory is *not* unchanged: the partial
file remains, because the caller performs no removal. -/
theorem c4_partial_output_counterexample :
    (transcodeAndServe { envBase with ffmpegWrites := true }
      "/downloads" "/downloads/in.mkv" 7 []).outcome = .transcodeError ∧
    (transcodeAndServe { envBase with ffmpegWrites := true }
      "/downloads" "/downloads/in.mkv" 7 []).fs = [cachedPathFor "/downloads" 7] := by
  constructor <;> rfl

/-- C4 amended: on a transcoder failure the operation returns an internal
error after exactly one `ffmpeg` invocation; the caller removes nothing,
so the cache state is unchanged exactly when the external tool left no
output, and the only path the failed call can have added is the
deterministic cached path for that video id. -/
theorem c4_transcode_failure (env : StreamEnv) (dir input : String) (videoID : Int)
    (fs : List String) (hs : env.statCached = false) (he : env.ffmpegExitOK = false) :
    (transcodeAndServe env dir input videoID fs).outcome = .transcodeError ∧
    (transcodeAndServe env dir input videoID fs).ffmpegRuns = 1 ∧
    (env.ffmpegWrites = false → (transcodeAndServe env dir input videoID fs).fs = fs) ∧
    (∀ q, q ∈ (transcodeAndServe env dir input videoID fs).fs ↔
      q ∈ fs ∨ (env.ffmpegWrites = true ∧ q = cachedPathFor dir videoID)) := by
  cases hw : env.ffmpegWrites with
  | false =>
    simp [transcodeAndServe, hs, he, hw]
  | true =>
    refine ⟨by simp [transcodeAndServe, hs, he, hw],
      by simp [transcodeAndServe, hs, he, hw],
      by simp [hw],
      fun q => by simp [transcodeAndServe, hs, he, hw, mem_insertPath]; tauto⟩

/-- Concrete instantiation of `c4_transcode_failure`: failing transcoder
that wrote nothing leaves the cache untouched. -/
theorem c4_transcode_failure_witness :
    (transcodeAndServe envBase "/downloads" "/downloads/in.mkv" 7 []).outcome =
      .transcodeError ∧
    (transcodeAndServe envBase "/downloads" "/downloads/in.mkv" 7 []).fs = [] :=
  ⟨(c4_transcode_failure envBase "/downloads" "/downloads/in.mkv" 7 [] rfl rfl).1,
    (c4_transcode_failure envBase "/downloads" "/downloads/in.mkv" 7 [] rfl rfl).2.2.1 rfl⟩

/-- Once a request is resolved (record found, non-empty file id), no branch
of the handler produces one of the explicit not-found responses. -/
theorem resolved_no_notfound (cfg : ServerCfg) (env : StreamEnv)
    (videoIDStr : String) (fs : List String) (cur : Int) (videos : List Video) (v : Video)
    (hne : videoIDStr ≠ "") (hdb : env.dbResult = some videos)
    (hfind : videos.find? (fun x => x.id == parseVideoID videoIDStr) = some v)
    (hfid : v.telegramFileID ≠ "") :
    (handleAPIStream cfg env videoIDStr fs cur).outcome ≠ .notFoundVideo ∧
    (handleAPIStream cfg env videoIDStr fs cur).outcome ≠ .notFoundFileID := by
  simp only [handleAPIStream, if_neg hne, hdb, hfind, if_neg hfid]
  split_ifs <;>
    first
    | exact transcodeAndServe_outcome_cases env cfg.downloadDir _ _ _
    | simp

/-- C9: the prior value of the shared currently-streaming-video-id marker
never influences the response: two executions of a stream request that
differ only in that value produce the same outcome, the same fetch and
subprocess counts and the same file-system effects.  (The handler writes
`s.currentVideo` at request start and never reads it.) -/
theorem c9_marker_no_influence (cfg : ServerCfg) (env : StreamEnv)
    (videoIDStr : String) (fs : List String) (cur₁ cur₂ : Int) :
    (handleAPIStream cfg env videoIDStr fs cur₁).outcome =
      (handleAPIStream cfg env videoIDStr fs cur₂).outcome ∧
    (handleAPIStream cfg env videoIDStr fs cur₁).downloadRuns =
      (handleAPIStream cfg env videoIDStr fs cur₂).downloadRuns ∧
    (handleAPIStream cfg env videoIDStr fs cur₁).ffprobeRuns =
      (handleAPIStream cfg env videoIDStr fs cur₂).ffprobeRuns ∧
    (handleAPIStream cfg env videoIDStr fs cur₁).ffmpegRuns =
      (handleAPIStream cfg env videoIDStr fs cur₂).ffmpegRuns ∧
    (handleAPIStream cfg env videoIDStr fs cur₁).fs =
      (handleAPIStream cfg env videoIDStr fs cur₂).fs := by
  by_cases h : videoIDStr = "" <;>
    simp [handleAPIStream, h]

/-- C3 counterexample: the local file exists at the existence check
(`statLocal`) but has vanished before the stream open (`openLocal = false`,
e.g. deleted by the sweeper in between).  The claim says this is treated as
a cache miss with exactly one re-fetch and no error; the code instead stays
in the local-hit branch: `http.ServeFile` answers 404 to the caller and no
re-fetch happens. -/
theorem c3_race_counterexample :
    (handleAPIStream ⟨"tok", "/downloads", true⟩
      { envBase with
          dbResult := some [⟨9, "fid9", "documents/w.mp4"⟩]
          statLocal := true
          probeLocal := ⟨some "h264\n", some "opus\n"⟩ }
      "9" [] 0).outcome =
      .serveMissing (localPathFor "tok" "documents/w.mp4") ∧
    (handleAPIStream ⟨"tok", "/downloads", true⟩
      { envBase with
          dbResult := some [⟨9, "fid9", "documents/w.mp4"⟩]
          statLocal := true
          probeLocal := ⟨some "h264\n", some "opus\n"⟩ }
      "9" [] 0).downloadRuns = 0 := by
  decide

/-- C3 amended: only a failure of the existence check itself routes a
request into the re-fetch path: with the stat missing and the downloader
configured the handler re-fetches exactly once and (with the download, the
codec gate and the open succeeding) serves the transient file with no
error; but whenever the existence check succeeds the handler performs zero
re-fetches, so a file that vanishes after the check is answered with an
error (file-server 404 or transcode failure), not re-fetched. -/
theorem c3_refetch_on_stat_miss (cfg : ServerCfg) (env : StreamEnv)
    (videoIDStr : String) (fs : List String) (cur : Int) (videos : List Video) (v : Video)
    (hne : videoIDStr ≠ "") (hdb : env.dbResult = some videos)
    (hfind : videos.find? (fun x => x.id == parseVideoID videoIDStr) = some v)
    (hfid : v.telegramFileID ≠ "") :
    (env.statLocal = false → cfg.downloaderPresent = true → env.createTempOK = true →
      env.downloadOK = true → needsTranscodingByCodec env.probeTmp = false →
      env.openTmp = true →
      (handleAPIStream cfg env videoIDStr fs cur).outcome =
        .served (cfg.downloadDir ++ "/" ++ env.tmpName) ∧
      (handleAPIStream cfg env videoIDStr fs cur).downloadRuns = 1) ∧
    (cfg.token ≠ "" → env.statLocal = true →
      (handleAPIStream cfg env videoIDStr fs cur).downloadRuns = 0) := by
  constructor
  · intro hsl hdp hct hdl hpt hot
    simp [handleAPIStream, hne, hdb, hfind, hfid, hsl, hdp, hct, hdl, hpt, hot]
  · intro htok hsl
    have hcond : cfg.token ≠ "" ∧ env.statLocal = true := ⟨htok, hsl⟩
    simp only [handleAPIStream, if_neg hne, hdb, hfind, if_neg hfid, if_pos hcond]
    split_ifs <;> rfl

/-- Concrete instantiation of `c3_refetch_on_stat_miss`: a stat-time miss
re-fetches once and serves the transient file. -/
theorem c3_refetch_on_stat_miss_witness :
    (handleAPIStream ⟨"tok", "/downloads", true⟩
      { envBase with
          dbResult := some [⟨3, "fid3", "documents/x.mp4"⟩]
          createTempOK := true
          tmpName := "stream-3-a.mp4"
          downloadOK := true
          probeTmp := ⟨some "vp9\n", some "vorbis\n"⟩
          openTmp := true }
      "3" [] 0).outcome = .served ("/downloads" ++ "/" ++ "stream-3-a.mp4") ∧
    (handleAPIStream ⟨"tok", "/downloads", true⟩
      { envBase with
          dbResult := some [⟨3, "fid3", "documents/x.mp4"⟩]
          createTempOK := true
          tmpName := "stream-3-a.mp4"
          downloadOK := true
          probeTmp := ⟨some "vp9\n", some "vorbis\n"⟩
          openTmp := true }
      "3" [] 0).downloadRuns = 1 :=
  (c3_refetch_on_stat_miss ⟨"tok", "/downloads", true⟩ _ "3" [] 0
    [⟨3, "fid3", "documents/x.mp4"⟩] ⟨3, "fid3", "documents/x.mp4"⟩
    (by decide) rfl (by decide) (by decide)).1 rfl rfl rfl rfl (by decide) rfl

/-- C7: every request that reaches the re-fetch path and successfully
creates its transient file removes exactly that file on every exit path
(download failure, transcode failure, direct serve, client disconnect
alike): after the request the transient path is absent from the file
system, the final state is the pre-cleanup state with just that path
filtered out, and every other path's presence is untouched by the
cleanup. -/
theorem c7_transient_file_removed (cfg : ServerCfg) (env : StreamEnv)
    (videoIDStr : String) (fs : List String) (cur : Int) (videos : List Video) (v : Video)
    (hne : videoIDStr ≠ "") (hdb : env.dbResult = some videos)
    (hfind : videos.find? (fun x => x.id == parseVideoID videoIDStr) = some v)
    (hfid : v.telegramFileID ≠ "")
    (hmiss : cfg.token = "" ∨ env.statLocal = false)
    (hdl : cfg.downloaderPresent = true) (hct : env.createTempOK = true) :
    (cfg.downloadDir ++ "/" ++ env.tmpName) ∉ (handleAPIStream cfg env videoIDStr fs cur).fs ∧
    ∃ m, (handleAPIStream cfg env videoIDStr fs cur).fs =
        removePath (cfg.downloadDir ++ "/" ++ env.tmpName) m ∧
      ∀ q, q ≠ (cfg.downloadDir ++ "/" ++ env.tmpName) →
        (q ∈ (handleAPIStream cfg env videoIDStr fs cur).fs ↔ q ∈ m) := by
  have hcond : ¬(cfg.token ≠ "" ∧ env.statLocal = true) := by
    rcases hmiss with h | h
    · exact fun hc => hc.1 h
    · exact fun hc => by rw [h] at hc; exact absurd hc.2 (by simp)
  have key : ∃ m, (handleAPIStream cfg env videoIDStr fs cur).fs =
      removePath (cfg.downloadDir ++ "/" ++ env.tmpName) m := by
    simp only [handleAPIStream, if_neg hne, hdb, hfind, if_neg hfid, if_neg hcond,
      hdl, hct, if_pos, reduceIte]
    split_ifs <;> exact ⟨_, rfl⟩
  obtain ⟨m, hm⟩ := key
  rw [hm]
  exact ⟨removePath_not_mem _ m, m, rfl,
    fun q hq => removePath_mem_iff _ q m hq⟩

/-- Concrete instantiation of `c7_transient_file_removed`: a failed
re-download still removes the transient file it created. -/
theorem c7_transient_file_removed_witness :
    ("/downloads" ++ "/" ++ "stream-4-b.mp4") ∉
      (handleAPIStream ⟨"", "/downloads", true⟩
        { envBase with
            dbResult := some [⟨4, "fid4", "documents/y.mp4"⟩]
            createTempOK := true
            tmpName := "stream-4-b.mp4" }
        "4" [] 0).fs :=
  (c7_transient_file_removed ⟨"", "/downloads", true⟩ _ "4" [] 0
    [⟨4, "fid4", "documents/y.mp4"⟩] ⟨4, "fid4", "documents/y.mp4"⟩
    (by decide) rfl (by decide) (by decide) (Or.inl rfl) rfl rfl).1

/-- C8 counterexample: the claim's "only if" direction fails.  A record for
video 5 exists with a non-empty blob identifier, yet the caller receives a
404: the local file vanished between the existence check and the open, and
`http.ServeFile` itself answers 404 — a NotFound that is not caused by a
missing record or a missing blob identifier. -/
theorem c8_notfound_counterexample :
    statusOf (handleAPIStream ⟨"tok", "/downloads", true⟩
      { envBase with
          dbResult := some [⟨5, "fid5", "documents/v.mp4"⟩]
          statLocal := true
          probeLocal := ⟨some "h264\n", some "aac\n"⟩ }
      "5" [] 0).outcome = 404 ∧
    [Video.mk 5 "fid5" "documents/v.mp4"].find?
      (fun x => x.id == parseVideoID "5") = some ⟨5, "fid5", "documents/v.mp4"⟩ ∧
    ("fid5" : String) ≠ "" := by
  decide

/-- C8 amended: the handler's own explicit NotFound responses are produced
exactly when no record matches the parsed id (404 "Video not found") or
the matching record's Telegram file id is empty (404 "Video file ID not
available"), and in both cases zero origin fetches, probes and transcodes
are attempted; a 404 status can additionally reach the caller from
`http.ServeFile` on a file that vanished after the existence check (or
from a proxied origin response), with a record present. -/
theorem c8_notfound_characterization (cfg : ServerCfg) (env : StreamEnv)
    (videoIDStr : String) (fs : List String) (cur : Int) (videos : List Video)
    (hne : videoIDStr ≠ "") (hdb : env.dbResult = some videos) :
    ((handleAPIStream cfg env videoIDStr fs cur).outcome = .notFoundVideo ↔
      videos.find? (fun x => x.id == parseVideoID videoIDStr) = none) ∧
    ((handleAPIStream cfg env videoIDStr fs cur).outcome = .notFoundFileID ↔
      ∃ v, videos.find? (fun x => x.id == parseVideoID videoIDStr) = some v ∧
        v.telegramFileID = "") ∧
    (((handleAPIStream cfg env videoIDStr fs cur).outcome = .notFoundVideo ∨
      (handleAPIStream cfg env videoIDStr fs cur).outcome = .notFoundFileID) →
      (handleAPIStream cfg env videoIDStr fs cur).downloadRuns = 0 ∧
      (handleAPIStream cfg env videoIDStr fs cur).ffprobeRuns = 0 ∧
      (handleAPIStream cfg env videoIDStr fs cur).ffmpegRuns = 0) := by
  cases hfind : videos.find? (fun x => x.id == parseVideoID videoIDStr) with
  | none =>
    refine ⟨by simp [handleAPIStream, hne, hdb, hfind], ?_, ?_⟩
    · simp [handleAPIStream, hne, hdb, hfind]
    · intro _
      simp [handleAPIStream, hne, hdb, hfind]
  | some v =>
    by_cases hfid : v.telegramFileID = ""
    · refine ⟨?_, ?_, ?_⟩
      · simp [handleAPIStream, hne, hdb, hfind, hfid]
      · simp [handleAPIStream, hne, hdb, hfind, hfid]
      · intro _
        simp [handleAPIStream, hne, hdb, hfind, hfid]
    · have hno := resolved_no_notfound cfg env videoIDStr fs cur videos v hne hdb hfind hfid
      refine ⟨?_, ?_, ?_⟩
      · constructor
        · intro h
          exact absurd h hno.1
        · intro h
          exact absurd h (by simp)
      · constructor
        · intro h
          exact absurd h hno.2
        · rintro ⟨w, hw, hw2⟩
          rw [Option.some_inj] at hw
          exact absurd (hw ▸ hw2) hfid
      · rintro (h | h)
        · exact absurd h hno.1
        · exact absurd h hno.2

/-- Concrete instantiation of `c8_notfound_characterization`: an id with no
record yields the explicit 404 with no fetch/probe/transcode. -/
theorem c8_notfound_characterization_witness :
    (handleAPIStream ⟨"tok", "/downloads", true⟩ envBase "1" [] 0).outcome =
      .notFoundVideo ∧
    (handleAPIStream ⟨"tok", "/downloads", true⟩ envBase "1" [] 0).downloadRuns = 0 ∧
    (handleAPIStream ⟨"tok", "/downloads", true⟩ envBase "1" [] 0).ffprobeRuns = 0 ∧
    (handleAPIStream ⟨"tok", "/downloads", true⟩ envBase "1" [] 0).ffmpegRuns = 0 :=
  have h := c8_notfound_characterization ⟨"tok", "/downloads", true⟩ envBase
    "1" [] 0 [] (by decide) rfl
  have h1 : (handleAPIStream ⟨"tok", "/downloads", true⟩ envBase "1" [] 0).outcome =
      .notFoundVideo := h.1.mpr rfl
  ⟨h1, (h.2.2 (Or.inl h1)).1, (h.2.2 (Or.inl h1)).2.1, (h.2.2 (Or.inl h1)).2.2⟩

/-! ## Lemmas about the id parser -/

/-- On an all-digit character list the parse loop either returns the
decimal value accumulated from `n` or aborts with a range error. -/
theorem parseUintChars_digits (cs : List Char) :
    ∀ n : Nat, (∀ c ∈ cs, (digitVal c).isSome) →
      parseUintChars cs n = .ok (decimalValue cs n) ∨
      parseUintChars cs n = .rangeErr := by
  induction cs with
  | nil =>
    intro n _
    exact Or.inl rfl
  | cons c cs ih =>
    intro n h
    have hc : (digitVal c).isSome := h c (List.mem_cons_self c cs)
    obtain ⟨d, hd⟩ := Option.isSome_iff_exists.mp hc
    simp only [parseUintChars, decimalValue, hd, Option.getD_some]
    split_ifs with h1 h2
    · exact Or.inr rfl
    · exact Or.inr rfl
    · exact ih (n * 10 + d) (fun x hx => h x (List.mem_cons_of_mem c hx))

/-- C10 counterexample: the first decimal past `int64` does not parse to 0
— Go's `strconv.ParseInt` reports a range error but returns the clamped
maximum, which `parseVideoID` keeps after discarding the error. -/
theorem c10_overflow_counterexample :
    parseVideoID "9223372036854775808" = 9223372036854775807 ∧
    parseVideoID "9223372036854775808" ≠ 0 := by
  decide

/-- C10 amended: the id parser discards the parse error; on a
syntax-invalid id segment (its sign-stripped digit part is empty or hits a
non-digit before any overflow) it returns 0 and the request is handled as
a lookup for video id 0 — yielding NotFound whenever no stored video has
id 0, with no bad-request error — while an unsigned all-digit id whose
value reaches 2⁶³ instead parses to the clamped boundary 2⁶³ − 1 and the
request proceeds with that id. -/
theorem c10_parse_error_discarded (cfg : ServerCfg) (env : StreamEnv)
    (videoIDStr : String) (fs : List String) (cur : Int) (videos : List Video)
    (hne : videoIDStr ≠ "")
    (hsyn : parseUint64 (stripSign videoIDStr.data).2 = .syntaxErr)
    (hdb : env.dbResult = some videos)
    (hzero : ∀ v ∈ videos, v.id ≠ 0) :
    parseVideoID videoIDStr = 0 ∧
    (handleAPIStream cfg env videoIDStr fs cur).outcome = .notFoundVideo ∧
    (∀ t : String, t.data ≠ [] → (∀ c ∈ t.data, (digitVal c).isSome) →
      2 ^ 63 ≤ decimalValue t.data 0 → parseVideoID t = 2 ^ 63 - 1) := by
  have hp : parseVideoID videoIDStr = 0 := by
    simp [parseVideoID, parseInt64, hsyn]
  refine ⟨hp, ?_, ?_⟩
  · have hfind : videos.find? (fun x => x.id == parseVideoID videoIDStr) = none := by
      rw [List.find?_eq_none]
      intro v hv
      simp [hp, hzero v hv]
    simp [handleAPIStream, hne, hdb, hfind]
  · intro t htne hdig hval
    cases ht : t.data with
    | nil => exact absurd ht htne
    | cons c cs =>
      have hc : (digitVal c).isSome := hdig c (ht ▸ List.mem_cons_self c cs)
      have hcp : c ≠ '+' := by
        intro hcc
        rw [hcc] at hc
        simp [digitVal] at hc
      have hcm : c ≠ '-' := by
        intro hcc
        rw [hcc] at hc
        simp [digitVal] at hc
      have hstrip : stripSign t.data = (false, t.data) := by
        rw [ht]
        simp [stripSign, hcp, hcm]
      have hnonempty : ¬t.data.isEmpty = true := by
        rw [ht]
        simp
      rcases parseUintChars_digits t.data 0 hdig with hok | hrange
      · simp only [parseVideoID, parseInt64, hstrip, parseUint64, hnonempty,
          Bool.false_eq_true, if_false, hok, reduceIte]
        rw [if_pos hval]
      · simp only [parseVideoID, parseInt64, hstrip, parseUint64, hnonempty,
          Bool.false_eq_true, if_false, hrange, reduceIte]

/-- Concrete instantiation of `c10_parse_error_discarded`: the non-numeric
segment "abc" parses to 0 and is answered with the explicit 404 when no
video has id 0. -/
theorem c10_parse_error_discarded_witness :
    parseVideoID "abc" = 0 ∧
    (handleAPIStream ⟨"tok", "/downloads", true⟩
      { envBase with dbResult := some [⟨5, "fid5", "documents/v.mp4"⟩] }
      "abc" [] 0).outcome = .notFoundVideo :=
  have h := c10_parse_error_discarded ⟨"tok", "/downloads", true⟩
    { envBase with dbResult := some [⟨5, "fid5", "documents/v.mp4"⟩] }
    "abc" [] 0 [⟨5, "fid5", "documents/v.mp4"⟩]
    (by decide) (by decide) rfl (by decide)
  ⟨h.1, h.2.1⟩

end Trtg
